import Mathlib

/-!
# Tremu backend — shallow embedding and verification

A shallow embedding of the Tremu Kanban backend's request handlers
(`src/backend/src/routes/{taskRoutes,columnRoutes,boardRoutes}.ts`) over an
explicit database state, together with theorems settling the specification's
claims about ordering, authorization and authentication behaviour.

Conventions of the embedding:
* JavaScript numbers that reach the handlers through `parseInt`/`isNaN`
  checks are modelled as `Option Int`, `none` standing for `NaN`;
* each Prisma table is a `List` of rows; `findUnique` is `List.find?`,
  `updateMany`/`update` map over the rows, `deleteMany`/`delete` filter,
  and `findMany` with `orderBy: asc` sorts with `sortAsc`;
* a handler returns the HTTP response (`Resp`) and the database afterwards.
-/

namespace Tremu

/-- A row of the `User` table. -/
structure User where
  id : Int
  email : String
  name : String
  password : String
deriving Repr, DecidableEq

/-- A row of the `Board` table. -/
structure Board where
  id : Int
  title : String
  ownerId : Int
deriving Repr, DecidableEq

/-- A row of the `BoardMember` table (composite key `(boardId, userId)`). -/
structure BoardMember where
  boardId : Int
  userId : Int
  role : String
deriving Repr, DecidableEq

/-- A row of the `Column` table. -/
structure Column where
  id : Int
  title : String
  boardId : Int
  order : Int
deriving Repr, DecidableEq

/-- A row of the `Task` table. -/
structure Task where
  id : Int
  title : String
  description : Option String
  columnId : Int
  order : Int
  assignedToId : Option Int
deriving Repr, DecidableEq

/-- The persistent state: one list per table, plus the autoincrement
counters for the two tables whose handlers create rows. -/
structure DB where
  users : List User
  boards : List Board
  members : List BoardMember
  columns : List Column
  tasks : List Task
  nextUserId : Int
  nextColumnId : Int
deriving Repr, DecidableEq

/-- The part of an HTTP response the claims talk about: status and message. -/
structure Resp where
  status : Nat
  message : String
deriving Repr, DecidableEq

/-- Embedding of `prisma.task.findUnique({where: {id}})`. -/
def findTask (db : DB) (i : Int) : Option Task :=
  db.tasks.find? (fun t => t.id == i)

/-- Embedding of `prisma.column.findUnique({where: {id}})`. -/
def findColumn (db : DB) (i : Int) : Option Column :=
  db.columns.find? (fun c => c.id == i)

/-- Embedding of `prisma.board.findUnique({where: {id}})`. -/
def findBoard (db : DB) (i : Int) : Option Board :=
  db.boards.find? (fun b => b.id == i)

/-- The membership test every handler performs through
`include: { members: { where: { userId } } }` followed by
`!board?.members.length`. -/
def memberOf (db : DB) (boardId userId : Int) : Bool :=
  db.members.any (fun m => m.boardId == boardId && m.userId == userId)

/-- JavaScript `String.prototype.toLowerCase`, on the ASCII range the
handlers use it for (emails). -/
def jsToLowerCase (s : String) : String :=
  String.mk (s.data.map Char.toLower)

/-- Embedding of `prisma.user.findUnique({where: {email: email.toLowerCase()}})`, the
lookup shared by register, login and board invitation. -/
def findUserByEmail (db : DB) (email : String) : Option User :=
  db.users.find? (fun u => u.email == jsToLowerCase email)

/-- Model of the external bcrypt hash (`bcrypt.hashSync(password, 10)`):
an injective tagging function, since only hash/compare consistency is
observable to the handlers. -/
def bcryptHash (password : String) : String :=
  String.mk ('#' :: password.data)

/-- Model of `bcrypt.compare(password, hash)`. -/
def bcryptCompare (password hash : String) : Bool :=
  hash == bcryptHash password

/-- Insert into a list sorted ascending by `le`. -/
def insertAsc {α : Type} (le : α → α → Bool) (x : α) : List α → List α
  | [] => [x]
  | y :: ys => if le x y then x :: y :: ys else y :: insertAsc le x ys

/-- Insertion sort: the embedding of `findMany({orderBy: {order: "asc"}})`. -/
def sortAsc {α : Type} (le : α → α → Bool) : List α → List α
  | [] => []
  | x :: xs => insertAsc le x (sortAsc le xs)

/-- The comparison `findMany({orderBy: {order: "asc"}})` sorts columns by. -/
def colLe (a b : Column) : Bool := a.order ≤ b.order

/-- JavaScript `arr.splice(n, 0, x)` for `0 ≤ n` (insert at index `n`,
clamped to the end of the list). -/
def spliceInsert {α : Type} : Nat → α → List α → List α
  | 0, x, l => x :: l
  | _ + 1, x, [] => [x]
  | n + 1, x, y :: l => y :: spliceInsert n x l

/-- The `(id, index)` pairs of `list.map((c, index) => update({where: {id: c.id},
data: {order: index}}))`, indices starting at `k`. -/
def enumOrders : Nat → List Column → List (Int × Int)
  | _, [] => []
  | k, c :: cs => (c.id, (k : Int)) :: enumOrders (k + 1) cs

/-- One `prisma.column.update({where: {id}, data: {order}})`. -/
def updateColumnOrder (cid ord : Int) (cs : List Column) : List Column :=
  cs.map (fun c => if c.id == cid then { c with order := ord } else c)

/-- The sequence of per-column order updates a reindexing transaction issues. -/
def applyOrderUpdates (upds : List (Int × Int)) (cs : List Column) : List Column :=
  upds.foldl (fun acc u => updateColumnOrder u.1 u.2 acc) cs

/-- Embedding of `updateMany({where: {columnId, order: {gte: lo, lt: hi}}, data: {order:
{increment: 1}}})` — the same-column move-up shift of the task move handler. -/
def shiftUp (cid lo hi : Int) (ts : List Task) : List Task :=
  ts.map (fun t =>
    if t.columnId == cid && lo ≤ t.order && t.order < hi then
      { t with order := t.order + 1 } else t)

/-- Embedding of `updateMany({where: {columnId, order: {gt: lo, lte: hi}}, data: {order:
{decrement: 1}}})` — the same-column move-down shift of the task move handler. -/
def shiftDown (cid lo hi : Int) (ts : List Task) : List Task :=
  ts.map (fun t =>
    if t.columnId == cid && lo < t.order && t.order ≤ hi then
      { t with order := t.order - 1 } else t)

/-- Embedding of `updateMany({where: {columnId, order: {gte: nord}}, data: {order:
{increment: 1}}})` — the destination shift of a cross-column task move. -/
def shiftUpGe (cid nord : Int) (ts : List Task) : List Task :=
  ts.map (fun t =>
    if t.columnId == cid && nord ≤ t.order then
      { t with order := t.order + 1 } else t)

/-- Embedding of `updateMany({where: {columnId, order: {gt: oord}}, data: {order:
{decrement: 1}}})` — the gap-filling shift of the task delete handler. -/
def shiftDownGt (cid oord : Int) (ts : List Task) : List Task :=
  ts.map (fun t =>
    if t.columnId == cid && oord < t.order then
      { t with order := t.order - 1 } else t)

/-- Embedding of `prisma.task.update({where: {id}, data: {columnId, order}})` — the final
row mutation of the task move handler. -/
def setTaskPos (tid cid nord : Int) (ts : List Task) : List Task :=
  ts.map (fun t =>
    if t.id == tid then { t with columnId := cid, order := nord } else t)

/-- Handler of `PATCH /tasks/:id/move` (`taskRoutes.ts` lines 254–390). `none` request
fields stand for NaN values; note the handler validates `newOrder` only with
`isNaN` (no bound check), and that its cross-column branch shifts only the
destination column. -/
def moveTask (uid : Int) (idP newColumnIdP newOrderP : Option Int) (db : DB) :
    Resp × DB :=
  match idP with
  | none => (⟨400, "Invalid request: ID must be a number"⟩, db)
  | some idInt =>
    match newColumnIdP with
    | none => (⟨400, "Invalid request: newColumnId must be a number"⟩, db)
    | some newColumnId =>
      match newOrderP with
      | none => (⟨400, "Invalid request: newOrder must be a number"⟩, db)
      | some newOrder =>
        match findTask db idInt with
        | none => (⟨404, "Task not found"⟩, db)
        | some task =>
          match (findColumn db newColumnId).bind (fun c => findBoard db c.boardId) with
          | none => (⟨403, "You must be a member of the board to move a task"⟩, db)
          | some board =>
            if !(memberOf db board.id uid) then
              (⟨403, "You must be a member of the board to move a task"⟩, db)
            else
              let shifted :=
                if task.columnId == newColumnId then
                  if newOrder < task.order then
                    shiftUp task.columnId newOrder task.order db.tasks
                  else if task.order < newOrder then
                    shiftDown task.columnId task.order newOrder db.tasks
                  else db.tasks
                else
                  shiftUpGe newColumnId newOrder db.tasks
              (⟨200, "Task moved successfully"⟩,
               { db with tasks := setTaskPos idInt newColumnId newOrder shifted })

/-- Handler of `DELETE /tasks/:id` (`taskRoutes.ts` lines 392–468): decrement the orders
above the deleted task's, then delete the row (two sequential operations, no
transaction). -/
def deleteTask (uid : Int) (idP : Option Int) (db : DB) : Resp × DB :=
  match idP with
  | none => (⟨400, "Invalid request: ID must be a number"⟩, db)
  | some idInt =>
    match findTask db idInt with
    | none => (⟨404, "Task not found"⟩, db)
    | some task =>
      match (findColumn db task.columnId).bind (fun c => findBoard db c.boardId) with
      | none => (⟨403, "You must be a member of the board to delete a task"⟩, db)
      | some board =>
        if !(memberOf db board.id uid) then
          (⟨403, "You must be a member of the board to delete a task"⟩, db)
        else
          let shifted := shiftDownGt task.columnId task.order db.tasks
          (⟨200, "Task deleted successfully"⟩,
           { db with tasks := shifted.filter (fun t => !(t.id == idInt)) })

/-- Handler of `POST /boards/:id/columns` (`columnRoutes.ts` lines 11–78): owner-only
creation at order `lastOrder ? lastOrder.order + 1 : 0`. -/
def createColumn (uid : Int) (idP : Option Int) (title : String) (db : DB) :
    Resp × DB :=
  match idP with
  | none => (⟨400, "Invalid request: ID must be a number and title must be a valid string"⟩, db)
  | some idInt =>
    if title.length < 2 then
      (⟨400, "Invalid request: ID must be a number and title must be a valid string"⟩, db)
    else
      match findBoard db idInt with
      | none => (⟨404, "Board not found"⟩, db)
      | some board =>
        if board.ownerId != uid then
          (⟨403, "Only the owner of the board can create columns"⟩, db)
        else
          let boardCols := db.columns.filter (fun c => c.boardId == idInt)
          let ord : Int :=
            match (sortAsc colLe boardCols).getLast? with
            | some c => c.order + 1
            | none => 0
          (⟨201, "Column created successfully"⟩,
           { db with
              columns := db.columns ++ [⟨db.nextColumnId, title, idInt, ord⟩],
              nextColumnId := db.nextColumnId + 1 })

/-- Handler of `DELETE /columns/:id` (`columnRoutes.ts` lines 212–295): owner-only;
one transaction deletes the column's tasks, deletes the column, and
reindexes the board's remaining columns to their index in ascending order. -/
def deleteColumn (uid : Int) (idP : Option Int) (db : DB) : Resp × DB :=
  match idP with
  | none => (⟨400, "Invalid ID format, it must be a number"⟩, db)
  | some idInt =>
    match findColumn db idInt with
    | none => (⟨404, "Column not found"⟩, db)
    | some column =>
      match findBoard db column.boardId with
      | none => (⟨403, "You must be the owner of the board to delete a column"⟩, db)
      | some board =>
        if board.ownerId != uid then
          (⟨403, "You must be the owner of the board to delete a column"⟩, db)
        else
          let tasks' := db.tasks.filter (fun t => !(t.columnId == idInt))
          let columns₁ := db.columns.filter (fun c => !(c.id == idInt))
          let remaining := sortAsc colLe (columns₁.filter (fun c => c.boardId == column.boardId))
          (⟨200, "Column and its tasks deleted successfully"⟩,
           { db with
              tasks := tasks',
              columns := applyOrderUpdates (enumOrders 0 remaining) columns₁ })

/-- Handler of `PATCH /columns/:id/reorder` (`columnRoutes.ts` lines 297–389).
The validation `isNaN(idInt) || !newOrder || isNaN(newOrder)` makes the
falsy value `0` a 400 as well; authorization only requires membership; the
`[0, count)` bound check precedes the splice-and-reindex transaction. -/
def reorderColumns (uid : Int) (idP newOrderP : Option Int) (db : DB) :
    Resp × DB :=
  match idP, newOrderP with
  | some idInt, some newOrder =>
    if newOrder == 0 then
      (⟨400, "Invalid request: Both ID's must be numbers"⟩, db)
    else
      match findColumn db idInt with
      | none => (⟨404, "Column not found"⟩, db)
      | some column =>
        match findBoard db column.boardId with
        | none => (⟨403, "You must be a member of the board to reorder columns"⟩, db)
        | some board =>
          if !(memberOf db board.id uid) then
            (⟨403, "You must be a member of the board to reorder columns"⟩, db)
          else
            let allColumns := sortAsc colLe (db.columns.filter (fun c => c.boardId == column.boardId))
            if newOrder < 0 || (allColumns.length : Int) ≤ newOrder then
              (⟨400, "Invalid request: New order is out of bounds"⟩, db)
            else
              let withoutMoved := allColumns.filter (fun c => !(c.id == idInt))
              let spliced := spliceInsert newOrder.toNat column withoutMoved
              (⟨200, "Columns reordered successfully"⟩,
               { db with columns := applyOrderUpdates (enumOrders 0 spliced) db.columns })
  | _, _ => (⟨400, "Invalid request: Both ID's must be numbers"⟩, db)

/-- Handler of `POST /boards/:id/invite` (`boardRoutes.ts` lines 256–334): owner-only;
the invitee is looked up by lowercased email. -/
def inviteMember (uid : Int) (idP : Option Int) (email : String) (db : DB) :
    Resp × DB :=
  match idP with
  | none => (⟨400, "Invalid request: ID must be a number and email must be a valid string"⟩, db)
  | some idInt =>
    if email.length < 5 then
      (⟨400, "Invalid request: ID must be a number and email must be a valid string"⟩, db)
    else
      match findBoard db idInt with
      | none => (⟨404, "Board not found"⟩, db)
      | some board =>
        if board.ownerId != uid then
          (⟨403, "Only the owner of the board can invite users"⟩, db)
        else
          match findUserByEmail db email with
          | none => (⟨404, "User with this email not found"⟩, db)
          | some userToInvite =>
            if db.members.any (fun m => m.boardId == idInt && m.userId == userToInvite.id) then
              (⟨400, "User is already a member of the board"⟩, db)
            else
              (⟨201, "User with email " ++ email ++ " invited to the board successfully"⟩,
               { db with members := db.members ++ [⟨idInt, userToInvite.id, "member"⟩] })

/-- Handler of `POST /auth/register` (auth routes): duplicate lowercased email is a 409,
otherwise the user is stored with the lowercased email and hashed password. -/
def register (email password name : String) (db : DB) : Resp × DB :=
  if email.length < 5 then
    (⟨400, "Something is wrong with the email"⟩, db)
  else if password.length < 8 then
    (⟨400, "Something is wrong with the password"⟩, db)
  else if name.length < 2 then
    (⟨400, "Something is wrong with the name"⟩, db)
  else
    match findUserByEmail db email with
    | some _ => (⟨409, "User with this email already exists"⟩, db)
    | none =>
      (⟨201, "User created successfully"⟩,
       { db with
          users := db.users ++ [⟨db.nextUserId, jsToLowerCase email, name, bcryptHash password⟩],
          nextUserId := db.nextUserId + 1 })

/-- Handler of `POST /auth/login` (auth routes): a missing user and a failing password
comparison produce the same 401 response. -/
def login (email password : String) (db : DB) : Resp × DB :=
  if email.length < 5 then
    (⟨400, "Something is wrong with the email"⟩, db)
  else if password.length < 8 then
    (⟨400, "Something is wrong with the password"⟩, db)
  else
    match findUserByEmail db email with
    | none => (⟨401, "Invalid email or password"⟩, db)
    | some user =>
      if !(bcryptCompare password user.password) then
        (⟨401, "Invalid email or password"⟩, db)
      else
        (⟨200, "Login successful"⟩, db)

/-- The orders of the tasks of column `cid`, in table order. -/
def ordersOf (db : DB) (cid : Int) : List Int :=
  (db.tasks.filter (fun t => t.columnId == cid)).map (fun t => t.order)

/-- The list `[0, 1, …, n-1]` as integers. -/
def intRange (n : Nat) : List Int :=
  List.map (fun i => Int.ofNat i) (List.range n)

/-- The density invariant for one column's tasks: the multiset of `order`
values is exactly `{0, …, n-1}` (checked on the sorted list). -/
def denseOrders (db : DB) (cid : Int) : Bool :=
  sortAsc (fun a b => a ≤ b) (ordersOf db cid) == intRange (ordersOf db cid).length

/-- The two sequential database operations of a cross-column task move
(`taskRoutes.ts` lines 355–378): shift the destination column, then move the
task row. They are not wrapped in a transaction. -/
def crossMoveSteps (tid ncid nord : Int) : List (DB → DB) :=
  [fun db => { db with tasks := shiftUpGe ncid nord db.tasks },
   fun db => { db with tasks := setTaskPos tid ncid nord db.tasks }]

/-- The database visible after the first `k` of a handler's sequential
operations have committed. -/
def runSteps (steps : List (DB → DB)) (k : Nat) (db : DB) : DB :=
  (steps.take k).foldl (fun d f => f d) db

/-- Atomicity of a sequence of operations from `db`: every prefix-state a
mid-sequence failure could leave behind is the initial or the final state. -/
def atomicSteps (steps : List (DB → DB)) (db : DB) : Prop :=
  ∀ k, k ≤ steps.length →
    runSteps steps k db = db ∨ runSteps steps k db = runSteps steps steps.length db

/-! ## Devices for reasoning about the reindexing transactions -/

/-- One `update({where: {id}, data: {order}})` as a per-row function. -/
def applyOne (u : Int × Int) (c : Column) : Column :=
  if c.id == u.1 then { c with order := u.2 } else c

/-- The cumulative effect of an update sequence on one row. -/
def finalOrder (upds : List (Int × Int)) (c : Column) : Column :=
  match upds with
  | [] => c
  | u :: us => finalOrder us (applyOne u c)

/-- The last order the update sequence binds to `cid`, if any. -/
def lastAssoc (cid : Int) : List (Int × Int) → Option Int
  | [] => none
  | u :: us =>
    match lastAssoc cid us with
    | some v => some v
    | none => if cid == u.1 then some u.2 else none

/-! ## Concrete states used to evaluate the handlers -/

/-- A board whose owner (user 1) has two columns; column 1 holds two tasks
with dense orders `0, 1`, column 2 is empty. -/
def dbTwoTasks : DB :=
  { users := [], boards := [⟨1, "b", 1⟩], members := [⟨1, 1, "owner"⟩],
    columns := [⟨1, "A", 1, 0⟩, ⟨2, "B", 1, 1⟩],
    tasks := [⟨1, "t1", none, 1, 0, none⟩, ⟨2, "t2", none, 1, 1, none⟩],
    nextUserId := 1, nextColumnId := 3 }

/-- A board with three columns `A(order 0), B(order 1), C(order 2)` whose
only member is its owner, user 1. -/
def dbThreeCols : DB :=
  { users := [], boards := [⟨1, "b", 1⟩], members := [⟨1, 1, "owner"⟩],
    columns := [⟨1, "A", 1, 0⟩, ⟨2, "B", 1, 1⟩, ⟨3, "C", 1, 2⟩],
    tasks := [], nextUserId := 1, nextColumnId := 4 }

/-- The three-column board with an additional non-owner member, user 2. -/
def dbWithMember : DB :=
  { users := [], boards := [⟨1, "b", 1⟩], members := [⟨1, 1, "owner"⟩, ⟨1, 2, "member"⟩],
    columns := [⟨1, "A", 1, 0⟩, ⟨2, "B", 1, 1⟩, ⟨3, "C", 1, 2⟩],
    tasks := [], nextUserId := 1, nextColumnId := 4 }

/-- A board with a single column holding a single task at order `0`. -/
def dbOneTask : DB :=
  { users := [], boards := [⟨1, "b", 1⟩], members := [⟨1, 1, "owner"⟩],
    columns := [⟨1, "A", 1, 0⟩],
    tasks := [⟨1, "t1", none, 1, 0, none⟩],
    nextUserId := 1, nextColumnId := 2 }

/-- Two columns with dense tasks: column 1 holds tasks 1, 2 (orders 0, 1),
column 2 holds task 3 (order 0). -/
def dbTwoCols : DB :=
  { users := [], boards := [⟨1, "b", 1⟩], members := [⟨1, 1, "owner"⟩],
    columns := [⟨1, "A", 1, 0⟩, ⟨2, "B", 1, 1⟩],
    tasks := [⟨1, "t1", none, 1, 0, none⟩, ⟨2, "t2", none, 1, 1, none⟩,
              ⟨3, "t3", none, 2, 0, none⟩],
    nextUserId := 1, nextColumnId := 3 }

/-- Registered users for exercising the auth handlers. -/
def dbUsers : DB :=
  { users := [⟨1, "alice@mail.com", "Alice", bcryptHash "password1"⟩],
    boards := [], members := [], columns := [], tasks := [],
    nextUserId := 2, nextColumnId := 1 }

/-- The empty state. -/
def dbEmpty : DB :=
  { users := [], boards := [], members := [], columns := [], tasks := [],
    nextUserId := 1, nextColumnId := 1 }

/-- A board whose owner can invite the second registered user. -/
def dbInvite : DB :=
  { users := [⟨1, "ann@mail.com", "Ann", bcryptHash "password1"⟩,
              ⟨2, "bob@mail.com", "Bob", bcryptHash "password2"⟩],
    boards := [⟨1, "b", 1⟩], members := [⟨1, 1, "owner"⟩], columns := [], tasks := [],
    nextUserId := 3, nextColumnId := 1 }

/-- State `dbTwoCols` with an additional non-owner member, user 2. -/
def dbTwoColsM : DB :=
  { dbTwoCols with members := [⟨1, 1, "owner"⟩, ⟨1, 2, "member"⟩] }

/-! ## The claims -/

/-! ## C1, C3: the cross-column move leaves the source column with a gap -/

/-- C1: the claim that every validated insert/move/delete/reorder sequence
keeps each parent's `order` values dense fails on the code. From a state in
which both columns are dense, the validated move of task 1 from column 1 to
column 2 succeeds (200), yet leaves column 1's orders no longer equal to
`{0, …, n-1}`: the cross-column branch of `PATCH /tasks/:id/move` never
decrements the source column, so the remaining task keeps order 1. -/
theorem C1_cross_move_breaks_density :
    denseOrders dbTwoTasks 1 = true ∧ denseOrders dbTwoTasks 2 = true ∧
    (moveTask 1 (some 1) (some 2) (some 0) dbTwoTasks).1.status = 200 ∧
    denseOrders (moveTask 1 (some 1) (some 2) (some 0) dbTwoTasks).2 1 = false := by
  decide

/-- C3: the claim that a successful cross-column move decrements every
source-column task above the moved task's old order fails on the code: after
moving task 1 (order 0) out of column 1, the remaining task 2 still has
order 1 instead of the claimed 0 — the handler's cross-column branch only
shifts the destination column. -/
theorem C3_source_gap_not_filled :
    (moveTask 1 (some 1) (some 2) (some 0) dbTwoTasks).1.status = 200 ∧
    ((moveTask 1 (some 1) (some 2) (some 0) dbTwoTasks).2.tasks.filter
        (fun t => t.columnId == 1)).map (fun t => t.order) = [1] := by
  decide

/-! ## C5: reordering a column to order 0 is rejected by the falsy check -/

/-- C5: the spec's example — move column C of `A(0), B(1), C(2)` to order 0
and expect `A(1), B(2), C(0)` — fails on the code: `parseInt` yields the
falsy value `0`, so the validation `!newOrder` returns 400 ("Invalid
request: Both ID's must be numbers") and nothing changes, although the
handler's own bound check (`newOrder < 0 ||
newOrder >= allColumns.length`) treats 0 as in bounds. -/
theorem C5_reorder_to_zero_rejected :
    reorderColumns 1 (some 3) (some 0) dbThreeCols
      = (⟨400, "Invalid request: Both ID's must be numbers"⟩, dbThreeCols) := by
  decide

/-! ## C2 (counterexample): task moves have no bound check -/

/-- C2 fails as stated: in a column with a single task (count = 1), the move
request with target order 5 — outside `[0, 1)` — is not rejected: it
returns 200 and mutates the state (the task's order becomes 5). -/
theorem C2_task_move_unbounded_order_accepted :
    (moveTask 1 (some 1) (some 1) (some 5) dbOneTask).1.status = 200 ∧
    (moveTask 1 (some 1) (some 1) (some 5) dbOneTask).2 ≠ dbOneTask := by
  decide

/-! ## C6 (counterexample): column reorder only requires membership -/

/-- C6 fails as stated: user 2 is a member but not the owner of the board,
yet the column reorder request succeeds (200, not 403) and changes the
column orders — `PATCH /columns/:id/reorder` checks membership only. -/
theorem C6_member_reorder_not_rejected :
    (reorderColumns 2 (some 3) (some 1) dbWithMember).1.status = 200 ∧
    (reorderColumns 2 (some 3) (some 1) dbWithMember).2 ≠ dbWithMember := by
  decide

/-! ## C4 (counterexample): the task move is not atomic -/

/-- C4 fails as stated: the successful cross-column task move equals the
sequential composition of its two database operations (destination shift,
then row move), and stopping after the first operation leaves an observable
state that is neither the initial nor the final one — the handler wraps the
two operations in no transaction. -/
theorem C4_task_move_partial_state_observable :
    (moveTask 1 (some 1) (some 2) (some 0) dbTwoCols).2
      = runSteps (crossMoveSteps 1 2 0) 2 dbTwoCols ∧
    ¬ atomicSteps (crossMoveSteps 1 2 0) dbTwoCols := by
  refine ⟨by decide, fun h => ?_⟩
  rcases h 1 (by decide) with h1 | h1 <;> exact absurd h1 (by decide)


theorem applyOne_id (u : Int × Int) (c : Column) : (applyOne u c).id = c.id := by
  unfold applyOne; split <;> rfl

theorem applyOne_boardId (u : Int × Int) (c : Column) :
    (applyOne u c).boardId = c.boardId := by
  unfold applyOne; split <;> rfl

theorem finalOrder_id (upds : List (Int × Int)) (c : Column) :
    (finalOrder upds c).id = c.id := by
  induction upds generalizing c with
  | nil => rfl
  | cons u us ih => rw [finalOrder, ih, applyOne_id]

theorem finalOrder_boardId (upds : List (Int × Int)) (c : Column) :
    (finalOrder upds c).boardId = c.boardId := by
  induction upds generalizing c with
  | nil => rfl
  | cons u us ih => rw [finalOrder, ih, applyOne_boardId]

theorem applyOrderUpdates_eq_map (upds : List (Int × Int)) (cs : List Column) :
    applyOrderUpdates upds cs = cs.map (finalOrder upds) := by
  induction upds generalizing cs with
  | nil => simp [applyOrderUpdates, finalOrder]
  | cons u us ih =>
      have h1 : applyOrderUpdates (u :: us) cs
          = applyOrderUpdates us (cs.map (applyOne u)) := rfl
      rw [h1, ih, List.map_map]
      rfl

theorem finalOrder_eq_lastAssoc (upds : List (Int × Int)) (c : Column) :
    finalOrder upds c = { c with order := (lastAssoc c.id upds).getD c.order } := by
  induction upds generalizing c with
  | nil => rfl
  | cons u us ih =>
      rw [finalOrder, ih]
      cases h : c.id == u.1 <;>
        cases h2 : lastAssoc c.id us <;>
          simp [applyOne, lastAssoc, h, h2]

theorem lastAssoc_enumOrders_of_not_mem (l : List Column) (x : Int) :
    ∀ k, x ∉ l.map (fun c => c.id) → lastAssoc x (enumOrders k l) = none := by
  induction l with
  | nil => intro k _; rfl
  | cons c cs ih =>
      intro k hx
      have hx1 : x ≠ c.id := by simp at hx; exact fun h => absurd h (by simpa using hx.1)
      have hx2 : x ∉ cs.map (fun c => c.id) := by simp at hx ⊢; exact fun a ha => hx.2 a ha
      rw [enumOrders, lastAssoc, ih (k + 1) hx2]
      simp [hx1]

theorem lastAssoc_enumOrders_get (l : List Column)
    (h : (l.map (fun c => c.id)).Nodup) :
    ∀ k i (hi : i < l.length),
      lastAssoc ((l.get ⟨i, hi⟩).id) (enumOrders k l) = some ((k : Int) + i) := by
  induction l with
  | nil => intro k i hi; exact absurd hi (by simp)
  | cons c cs ih =>
      intro k i hi
      have h' := h
      simp only [List.map_cons, List.nodup_cons, List.mem_map, not_exists, not_and] at h'
      have hnd : (cs.map (fun c => c.id)).Nodup := h'.2
      cases i with
      | zero =>
          have hcm : c.id ∉ cs.map (fun c => c.id) := by
            simp only [List.mem_map, not_exists, not_and]
            exact h'.1
          show lastAssoc c.id (enumOrders k (c :: cs)) = some ((k : Int) + (0 : Nat))
          rw [enumOrders, lastAssoc, lastAssoc_enumOrders_of_not_mem cs c.id (k + 1) hcm]
          simp
      | succ j =>
          have hj : j < cs.length := by simpa using hi
          show lastAssoc ((cs.get ⟨j, hj⟩).id) (enumOrders k (c :: cs)) = _
          rw [enumOrders, lastAssoc, ih hnd (k + 1) j hj]
          push_cast
          congr 1
          omega

theorem map_finalOrder_ids (upds : List (Int × Int)) (l : List Column) :
    (l.map (finalOrder upds)).map (fun c => c.id) = l.map (fun c => c.id) := by
  rw [List.map_map]
  exact List.map_congr_left (fun c _ => finalOrder_id upds c)

theorem map_finalOrder_orders (l : List Column)
    (h : (l.map (fun c => c.id)).Nodup) :
    (l.map (finalOrder (enumOrders 0 l))).map (fun c => c.order) = intRange l.length := by
  apply List.ext_get
  · simp only [intRange, List.length_map, List.length_range]
  · intro n h₁ h₂
    have hn : n < l.length := by simpa using h₁
    have hget : ((l.map (finalOrder (enumOrders 0 l))).map (fun c => c.order)).get ⟨n, h₁⟩
        = (finalOrder (enumOrders 0 l) (l.get ⟨n, hn⟩)).order := by
      simp
    rw [hget, finalOrder_eq_lastAssoc, lastAssoc_enumOrders_get l h 0 n hn]
    simp only [intRange, List.get_eq_getElem, List.getElem_map, List.getElem_range,
      Option.getD_some]
    show (0 : Int) + (n : Int) = Int.ofNat n
    rw [Int.ofNat_eq_natCast, zero_add]

theorem filter_map_of_inv {f : Column → Column} {p : Column → Bool}
    (hp : ∀ c, p (f c) = p c) :
    ∀ l : List Column, (l.map f).filter p = (l.filter p).map f := by
  intro l
  induction l with
  | nil => rfl
  | cons c cs ih =>
      by_cases h : p c = true
      · simp [List.filter_cons, hp, h, ih]
      · simp only [Bool.not_eq_true] at h
        simp [List.filter_cons, hp, h, ih]

theorem insertAsc_cons_of_le {α : Type} (le : α → α → Bool) (x y : α) (ys : List α)
    (h : le x y = true) : insertAsc le x (y :: ys) = x :: y :: ys := by
  simp [insertAsc, h]

theorem sortAsc_eq_self {α : Type} (le : α → α → Bool) :
    ∀ l : List α, l.Pairwise (fun a b => le a b = true) → sortAsc le l = l := by
  intro l
  induction l with
  | nil => intro _; rfl
  | cons x xs ih =>
      intro h
      rw [List.pairwise_cons] at h
      rw [sortAsc, ih h.2]
      cases xs with
      | nil => rfl
      | cons y ys => exact insertAsc_cons_of_le le x y ys (h.1 y (by simp))

/-- C8: a successful owner deletion of a column deletes all of the column's
tasks, removes the column, and reassigns the remaining columns of the board
orders `0..m-1` in their previous relative order. Stated for any state
whose column ids are distinct and whose remaining board columns are stored
in ascending order. -/
theorem C8_delete_column_cascade
    (uid cid : Int) (db : DB) (column : Column) (board : Board)
    (hcol : findColumn db cid = some column)
    (hboard : findBoard db column.boardId = some board)
    (howner : board.ownerId = uid)
    (hids : (db.columns.map (fun c => c.id)).Nodup)
    (hsorted : ((db.columns.filter (fun c => !(c.id == cid))).filter
        (fun c => c.boardId == column.boardId)).Pairwise
        (fun a b => a.order ≤ b.order)) :
    (deleteColumn uid (some cid) db).1.status = 200 ∧
    (deleteColumn uid (some cid) db).2.tasks
      = db.tasks.filter (fun t => !(t.columnId == cid)) ∧
    (∀ c ∈ (deleteColumn uid (some cid) db).2.columns, c.id ≠ cid) ∧
    ((deleteColumn uid (some cid) db).2.columns.filter
        (fun c => c.boardId == column.boardId)).map (fun c => c.id)
      = ((db.columns.filter (fun c => !(c.id == cid))).filter
          (fun c => c.boardId == column.boardId)).map (fun c => c.id) ∧
    ((deleteColumn uid (some cid) db).2.columns.filter
        (fun c => c.boardId == column.boardId)).map (fun c => c.order)
      = intRange ((db.columns.filter (fun c => !(c.id == cid))).filter
          (fun c => c.boardId == column.boardId)).length := by
  have hbne : (board.ownerId != uid) = false := by simp [howner]
  set rem := (db.columns.filter (fun c => !(c.id == cid))).filter
      (fun c => c.boardId == column.boardId) with hrem
  have hsort : sortAsc colLe ((db.columns.filter (fun c => !(c.id == cid))).filter
      (fun c => c.boardId == column.boardId)) = rem := by
    rw [← hrem]
    exact sortAsc_eq_self colLe rem (hsorted.imp (fun hab => by
      simpa [colLe] using hab))
  have hres : deleteColumn uid (some cid) db
      = (⟨200, "Column and its tasks deleted successfully"⟩,
         { db with
            tasks := db.tasks.filter (fun t => !(t.columnId == cid)),
            columns := applyOrderUpdates (enumOrders 0 rem)
              (db.columns.filter (fun c => !(c.id == cid))) }) := by
    simp only [deleteColumn, hcol, hboard, hbne, Bool.false_eq_true, if_false, hsort]
  have hremids : (rem.map (fun c => c.id)).Nodup := by
    have h1 : rem.Sublist db.columns :=
      ((db.columns.filter (fun c => !(c.id == cid))).filter_sublist).trans
        ((db.columns).filter_sublist)
    exact List.Nodup.sublist (h1.map (fun c => c.id)) hids
  have hcomm : ((db.columns.filter (fun c => !(c.id == cid))).map
        (finalOrder (enumOrders 0 rem))).filter (fun c => c.boardId == column.boardId)
      = rem.map (finalOrder (enumOrders 0 rem)) := by
    rw [filter_map_of_inv (fun c => by rw [finalOrder_boardId])]
  refine ⟨by rw [hres], by rw [hres], ?_, ?_, ?_⟩
  · intro c hc
    rw [hres] at hc
    simp only [applyOrderUpdates_eq_map, List.mem_map, List.mem_filter] at hc
    obtain ⟨x, ⟨hx, hxid⟩, hfx⟩ := hc
    rw [← hfx, finalOrder_id]
    simpa using hxid
  · rw [hres]
    show ((applyOrderUpdates (enumOrders 0 rem) _).filter _).map _ = _
    rw [applyOrderUpdates_eq_map, hcomm, map_finalOrder_ids]
  · rw [hres]
    show ((applyOrderUpdates (enumOrders 0 rem) _).filter _).map _ = _
    rw [applyOrderUpdates_eq_map, hcomm, map_finalOrder_orders rem hremids]

/-- C7: moving a task to its own column and its own order leaves the task
table — in particular every sibling's `order` — unchanged: the same-column
branch shifts nothing when `newOrder` equals the task's order, and the final
row update rewrites the task's own fields to their current values. -/
theorem C7_same_position_move_is_noop
    (uid tid : Int) (db : DB) (task : Task) (board : Board)
    (hids : (db.tasks.map (fun t => t.id)).Nodup)
    (htask : findTask db tid = some task)
    (hboard : (findColumn db task.columnId).bind (fun c => findBoard db c.boardId)
        = some board)
    (hmem : memberOf db board.id uid = true) :
    (moveTask uid (some tid) (some task.columnId) (some task.order) db).2.tasks
      = db.tasks := by
  have htid : task.id = tid := by
    have := List.find?_some htask
    simpa using this
  have hmemt : task ∈ db.tasks := List.mem_of_find?_eq_some htask
  have hset : setTaskPos tid task.columnId task.order db.tasks = db.tasks := by
    have : ∀ t ∈ db.tasks,
        (if t.id == tid then { t with columnId := task.columnId, order := task.order } else t) = t := by
      intro t ht
      cases h : t.id == tid with
      | false => rfl
      | true =>
          have hteq : t = task := by
            apply List.inj_on_of_nodup_map hids ht hmemt
            rw [htid]
            simpa using h
          subst hteq
          rfl
    calc setTaskPos tid task.columnId task.order db.tasks
        = db.tasks.map (fun t => t) := List.map_congr_left this
      _ = db.tasks := List.map_id' db.tasks
  simp only [moveTask, htask, hboard, hmem, Bool.not_true, Bool.false_eq_true, if_false,
    beq_self_eq_true, if_true, lt_self_iff_false, if_false]
  simpa using hset

/-- C2 (amended): the `[0, count)` bound check exists only in the column
reorder handler — there, an out-of-bounds nonzero target is rejected with
400 before any mutation, and an in-bounds positive target passes it and the
request succeeds; the task move handler has no bound check at all: any
numeric target order is accepted (200) once the task exists and the
requester is a member of the destination board. -/
theorem C2_bound_check_only_in_column_reorder :
    (∀ (uid cid v : Int) (db : DB) (column : Column) (board : Board),
       v ≠ 0 →
       findColumn db cid = some column →
       findBoard db column.boardId = some board →
       memberOf db board.id uid = true →
       (v < 0 ∨ ((sortAsc colLe (db.columns.filter
           (fun c => c.boardId == column.boardId))).length : Int) ≤ v) →
       reorderColumns uid (some cid) (some v) db
         = (⟨400, "Invalid request: New order is out of bounds"⟩, db)) ∧
    (∀ (uid cid v : Int) (db : DB) (column : Column) (board : Board),
       v ≠ 0 →
       findColumn db cid = some column →
       findBoard db column.boardId = some board →
       memberOf db board.id uid = true →
       0 ≤ v →
       v < ((sortAsc colLe (db.columns.filter
           (fun c => c.boardId == column.boardId))).length : Int) →
       (reorderColumns uid (some cid) (some v) db).1.status = 200) ∧
    (∀ (uid tid ncid v : Int) (db : DB) (task : Task) (board : Board),
       findTask db tid = some task →
       (findColumn db ncid).bind (fun c => findBoard db c.boardId) = some board →
       memberOf db board.id uid = true →
       (moveTask uid (some tid) (some ncid) (some v) db).1.status = 200) := by
  refine ⟨?_, ?_, ?_⟩
  · intro uid cid v db column board hv hcol hboard hmem hout
    have hv0 : (v == 0) = false := by simpa using hv
    have hc : (decide (v < 0) ||
        decide (((sortAsc colLe (db.columns.filter
          (fun c => c.boardId == column.boardId))).length : Int) ≤ v)) = true := by
      rcases hout with h | h <;> simp [h]
    simp only [reorderColumns, hv0, Bool.false_eq_true, if_false, hcol, hboard, hmem,
      Bool.not_true, hc, if_true]
  · intro uid cid v db column board hv hcol hboard hmem h0 hlt
    have hv0 : (v == 0) = false := by simpa using hv
    have hc : (decide (v < 0) ||
        decide (((sortAsc colLe (db.columns.filter
          (fun c => c.boardId == column.boardId))).length : Int) ≤ v)) = false := by
      simp
      omega
    simp only [reorderColumns, hv0, Bool.false_eq_true, if_false, hcol, hboard, hmem,
      Bool.not_true, hc]
  · intro uid tid ncid v db task board htask hboard hmem
    simp only [moveTask, htask, hboard, hmem, Bool.not_true, Bool.false_eq_true, if_false]

/-- C6 (amended): column creation, column deletion and member invitation are
owner-only — a non-owner requester receives 403 with no state change — but
column reorder requires only board membership (a non-owner member's
in-bounds reorder succeeds), and task moves likewise require membership,
not ownership. -/
theorem C6_owner_only_scope :
    (∀ (uid bid : Int) (title : String) (db : DB) (board : Board),
       2 ≤ title.length →
       findBoard db bid = some board → board.ownerId ≠ uid →
       createColumn uid (some bid) title db
         = (⟨403, "Only the owner of the board can create columns"⟩, db)) ∧
    (∀ (uid cid : Int) (db : DB) (column : Column) (board : Board),
       findColumn db cid = some column →
       findBoard db column.boardId = some board → board.ownerId ≠ uid →
       deleteColumn uid (some cid) db
         = (⟨403, "You must be the owner of the board to delete a column"⟩, db)) ∧
    (∀ (uid bid : Int) (email : String) (db : DB) (board : Board),
       5 ≤ email.length →
       findBoard db bid = some board → board.ownerId ≠ uid →
       inviteMember uid (some bid) email db
         = (⟨403, "Only the owner of the board can invite users"⟩, db)) ∧
    (∀ (uid cid v : Int) (db : DB) (column : Column) (board : Board),
       v ≠ 0 →
       findColumn db cid = some column →
       findBoard db column.boardId = some board →
       memberOf db board.id uid = true →
       board.ownerId ≠ uid →
       0 ≤ v →
       v < ((sortAsc colLe (db.columns.filter
           (fun c => c.boardId == column.boardId))).length : Int) →
       (reorderColumns uid (some cid) (some v) db).1.status = 200) ∧
    (∀ (uid tid ncid v : Int) (db : DB) (task : Task) (board : Board),
       findTask db tid = some task →
       (findColumn db ncid).bind (fun c => findBoard db c.boardId) = some board →
       memberOf db board.id uid = true →
       board.ownerId ≠ uid →
       (moveTask uid (some tid) (some ncid) (some v) db).1.status = 200) := by
  refine ⟨?_, ?_, ?_, ?_, ?_⟩
  · intro uid bid title db board htitle hboard howner
    have ht : ¬ title.length < 2 := by omega
    have hbne : (board.ownerId != uid) = true := by simpa using howner
    simp only [createColumn, ht, if_false, hboard, hbne, if_true]
  · intro uid cid db column board hcol hboard howner
    have hbne : (board.ownerId != uid) = true := by simpa using howner
    simp only [deleteColumn, hcol, hboard, hbne, if_true]
  · intro uid bid email db board hemail hboard howner
    have he : ¬ email.length < 5 := by omega
    have hbne : (board.ownerId != uid) = true := by simpa using howner
    simp only [inviteMember, he, if_false, hboard, hbne, if_true]
  · intro uid cid v db column board hv hcol hboard hmem _ h0 hlt
    have hv0 : (v == 0) = false := by simpa using hv
    have hc : (decide (v < 0) ||
        decide (((sortAsc colLe (db.columns.filter
          (fun c => c.boardId == column.boardId))).length : Int) ≤ v)) = false := by
      simp
      omega
    simp only [reorderColumns, hv0, Bool.false_eq_true, if_false, hcol, hboard, hmem,
      Bool.not_true, hc]
  · intro uid tid ncid v db task board htask hboard hmem _
    simp only [moveTask, htask, hboard, hmem, Bool.not_true, Bool.false_eq_true, if_false]

/-- C4 (amended): the cross-column task move is not atomic. Its effect on a
successful request equals running its two database operations in sequence
(`crossMoveSteps`: destination shift, then row move) with no transaction
around them, and at a concrete state the prefix after only the first
operation matches neither the initial nor the final state — a mid-sequence
failure leaves that partial reindexing committed. -/
theorem C4_task_move_not_transactional :
    (∀ (uid tid ncid nord : Int) (db : DB) (task : Task) (board : Board),
       findTask db tid = some task →
       (findColumn db ncid).bind (fun c => findBoard db c.boardId) = some board →
       memberOf db board.id uid = true →
       (task.columnId == ncid) = false →
       (moveTask uid (some tid) (some ncid) (some nord) db).2
         = runSteps (crossMoveSteps tid ncid nord) 2 db) ∧
    ¬ atomicSteps (crossMoveSteps 1 2 0) dbTwoCols := by
  constructor
  · intro uid tid ncid nord db task board htask hboard hmem hcc
    simp only [moveTask, htask, hboard, hmem, Bool.not_true, Bool.false_eq_true, if_false,
      hcc, runSteps, crossMoveSteps, List.take, List.foldl]
  · intro h
    rcases h 1 (by decide) with h1 | h1 <;> exact absurd h1 (by decide)

/-- C9: registration with an email whose lowercase form is already taken
returns 409 and leaves the state unchanged; login replies 401 with the
identical message "Invalid email or password" both when no user has the
email and when the stored bcrypt hash does not match the password. -/
theorem C9_auth_error_responses :
    (∀ (db : DB) (email pw nm : String) (u : User),
       5 ≤ email.length → 8 ≤ pw.length → 2 ≤ nm.length →
       findUserByEmail db email = some u →
       register email pw nm db = (⟨409, "User with this email already exists"⟩, db)) ∧
    (∀ (db : DB) (email pw : String),
       5 ≤ email.length → 8 ≤ pw.length →
       findUserByEmail db email = none →
       login email pw db = (⟨401, "Invalid email or password"⟩, db)) ∧
    (∀ (db : DB) (email pw : String) (u : User),
       5 ≤ email.length → 8 ≤ pw.length →
       findUserByEmail db email = some u →
       bcryptCompare pw u.password = false →
       login email pw db = (⟨401, "Invalid email or password"⟩, db)) := by
  refine ⟨?_, ?_, ?_⟩
  · intro db email pw nm u he hp hn hfind
    have h1 : ¬ email.length < 5 := by omega
    have h2 : ¬ pw.length < 8 := by omega
    have h3 : ¬ nm.length < 2 := by omega
    simp only [register, h1, if_false, h2, h3, hfind]
  · intro db email pw he hp hfind
    have h1 : ¬ email.length < 5 := by omega
    have h2 : ¬ pw.length < 8 := by omega
    simp only [login, h1, if_false, h2, hfind]
  · intro db email pw u he hp hfind hcmp
    have h1 : ¬ email.length < 5 := by omega
    have h2 : ¬ pw.length < 8 := by omega
    simp only [login, h1, if_false, h2, hfind, hcmp, Bool.not_false, if_true]

theorem jsToLowerCase_length (s : String) :
    (jsToLowerCase s).length = s.length := by
  rw [jsToLowerCase, String.length_mk, List.length_map]
  rfl

/-- C10: email identity is case-insensitive — registration stores the
lowercased email, and login and board invitation resolve any two emails
with the same lowercase form to the same user, giving the same status and
resulting state. -/
theorem C10_email_case_insensitive :
    (∀ (db : DB) (email pw nm : String),
       5 ≤ email.length → 8 ≤ pw.length → 2 ≤ nm.length →
       findUserByEmail db email = none →
       (register email pw nm db).2.users
         = db.users ++ [⟨db.nextUserId, jsToLowerCase email, nm, bcryptHash pw⟩]) ∧
    (∀ (db : DB) (e₁ e₂ pw : String),
       jsToLowerCase e₁ = jsToLowerCase e₂ →
       login e₁ pw db = login e₂ pw db) ∧
    (∀ (uid : Int) (bid : Option Int) (db : DB) (e₁ e₂ : String),
       jsToLowerCase e₁ = jsToLowerCase e₂ →
       (inviteMember uid bid e₁ db).1.status = (inviteMember uid bid e₂ db).1.status ∧
       (inviteMember uid bid e₁ db).2 = (inviteMember uid bid e₂ db).2) := by
  refine ⟨?_, ?_, ?_⟩
  · intro db email pw nm he hp hn hfind
    have h1 : ¬ email.length < 5 := by omega
    have h2 : ¬ pw.length < 8 := by omega
    have h3 : ¬ nm.length < 2 := by omega
    simp only [register, h1, if_false, h2, h3, hfind]
  · intro db e₁ e₂ pw h
    have hlen : e₁.length = e₂.length := by
      rw [← jsToLowerCase_length e₁, ← jsToLowerCase_length e₂, h]
    have hfind : findUserByEmail db e₁ = findUserByEmail db e₂ := by
      simp only [findUserByEmail, h]
    rw [login, login, hlen, hfind]
  · intro uid bid db e₁ e₂ h
    have hlen : e₁.length = e₂.length := by
      rw [← jsToLowerCase_length e₁, ← jsToLowerCase_length e₂, h]
    have hfind : findUserByEmail db e₁ = findUserByEmail db e₂ := by
      simp only [findUserByEmail, h]
    cases bid with
    | none => exact ⟨rfl, rfl⟩
    | some b =>
        rw [inviteMember, inviteMember, hlen, hfind]
        by_cases hb : e₂.length < 5
        · simp [hb]
        · simp only [hb, if_false]
          cases findBoard db b with
          | none => exact ⟨rfl, rfl⟩
          | some board =>
              cases hob : board.ownerId != uid with
              | true => simp [hob]
              | false =>
                  simp only [hob, Bool.false_eq_true, if_false]
                  cases findUserByEmail db e₂ with
                  | none => exact ⟨rfl, rfl⟩
                  | some u =>
                      cases hm : db.members.any (fun m => m.boardId == b && m.userId == u.id) with
                      | true => simp [hm]
                      | false => simp [hm]

theorem C2_bound_check_witness :
    reorderColumns 1 (some 3) (some 5) dbThreeCols
      = (⟨400, "Invalid request: New order is out of bounds"⟩, dbThreeCols) ∧
    (reorderColumns 1 (some 3) (some 1) dbThreeCols).1.status = 200 ∧
    (moveTask 1 (some 1) (some 1) (some 7) dbOneTask).1.status = 200 :=
  ⟨C2_bound_check_only_in_column_reorder.1 1 3 5 dbThreeCols ⟨3, "C", 1, 2⟩ ⟨1, "b", 1⟩
      (by decide) (by decide) (by decide) (by decide) (by decide),
   C2_bound_check_only_in_column_reorder.2.1 1 3 1 dbThreeCols ⟨3, "C", 1, 2⟩ ⟨1, "b", 1⟩
      (by decide) (by decide) (by decide) (by decide) (by decide) (by decide),
   C2_bound_check_only_in_column_reorder.2.2 1 1 1 7 dbOneTask ⟨1, "t1", none, 1, 0, none⟩
      ⟨1, "b", 1⟩ (by decide) (by decide) (by decide)⟩

theorem C4_two_steps_witness :
    (moveTask 1 (some 1) (some 2) (some 0) dbTwoTasks).2
      = runSteps (crossMoveSteps 1 2 0) 2 dbTwoTasks :=
  C4_task_move_not_transactional.1 1 1 2 0 dbTwoTasks ⟨1, "t1", none, 1, 0, none⟩
    ⟨1, "b", 1⟩ (by decide) (by decide) (by decide) (by decide)

theorem C6_owner_only_witness :
    createColumn 2 (some 1) "New" dbWithMember
      = (⟨403, "Only the owner of the board can create columns"⟩, dbWithMember) ∧
    deleteColumn 2 (some 2) dbWithMember
      = (⟨403, "You must be the owner of the board to delete a column"⟩, dbWithMember) ∧
    inviteMember 2 (some 1) "bob@mail.com" dbWithMember
      = (⟨403, "Only the owner of the board can invite users"⟩, dbWithMember) ∧
    (reorderColumns 2 (some 3) (some 1) dbWithMember).1.status = 200 ∧
    (moveTask 2 (some 1) (some 2) (some 0) dbTwoColsM).1.status = 200 :=
  ⟨C6_owner_only_scope.1 2 1 "New" dbWithMember ⟨1, "b", 1⟩ (by decide) (by decide) (by decide),
   C6_owner_only_scope.2.1 2 2 dbWithMember ⟨2, "B", 1, 1⟩ ⟨1, "b", 1⟩
      (by decide) (by decide) (by decide),
   C6_owner_only_scope.2.2.1 2 1 "bob@mail.com" dbWithMember ⟨1, "b", 1⟩
      (by decide) (by decide) (by decide),
   C6_owner_only_scope.2.2.2.1 2 3 1 dbWithMember ⟨3, "C", 1, 2⟩ ⟨1, "b", 1⟩
      (by decide) (by decide) (by decide) (by decide) (by decide) (by decide) (by decide),
   C6_owner_only_scope.2.2.2.2 2 1 2 0 dbTwoColsM ⟨1, "t1", none, 1, 0, none⟩ ⟨1, "b", 1⟩
      (by decide) (by decide) (by decide) (by decide)⟩

theorem C7_same_position_witness :
    (moveTask 1 (some 1) (some 1) (some 0) dbOneTask).2.tasks = dbOneTask.tasks :=
  C7_same_position_move_is_noop 1 1 dbOneTask ⟨1, "t1", none, 1, 0, none⟩ ⟨1, "b", 1⟩
    (by decide) (by decide) (by decide) (by decide)

theorem C8_delete_column_witness :
    (deleteColumn 1 (some 2) dbThreeCols).1.status = 200 ∧
    ((deleteColumn 1 (some 2) dbThreeCols).2.columns.filter
        (fun c => c.boardId == (1 : Int))).map (fun c => c.order) = intRange 2 :=
  ⟨(C8_delete_column_cascade 1 2 dbThreeCols ⟨2, "B", 1, 1⟩ ⟨1, "b", 1⟩
      (by decide) (by decide) (by decide) (by decide) (by decide)).1,
   (C8_delete_column_cascade 1 2 dbThreeCols ⟨2, "B", 1, 1⟩ ⟨1, "b", 1⟩
      (by decide) (by decide) (by decide) (by decide) (by decide)).2.2.2.2⟩

theorem C9_auth_witness :
    register "alice@mail.com" "longpassword" "Bob" dbUsers
      = (⟨409, "User with this email already exists"⟩, dbUsers) ∧
    login "nobody@mail.com" "longpassword" dbUsers
      = (⟨401, "Invalid email or password"⟩, dbUsers) ∧
    login "alice@mail.com" "wrongpass123" dbUsers
      = (⟨401, "Invalid email or password"⟩, dbUsers) :=
  ⟨C9_auth_error_responses.1 dbUsers "alice@mail.com" "longpassword" "Bob"
      ⟨1, "alice@mail.com", "Alice", bcryptHash "password1"⟩
      (by decide) (by decide) (by decide) (by decide),
   C9_auth_error_responses.2.1 dbUsers "nobody@mail.com" "longpassword"
      (by decide) (by decide) (by decide),
   C9_auth_error_responses.2.2 dbUsers "alice@mail.com" "wrongpass123"
      ⟨1, "alice@mail.com", "Alice", bcryptHash "password1"⟩
      (by decide) (by decide) (by decide) (by decide)⟩

theorem C10_case_insensitive_witness :
    (register "Alice@Mail.com" "longpassword" "Alice" dbEmpty).2.users
      = [⟨1, "alice@mail.com", "Alice", bcryptHash "longpassword"⟩] ∧
    login "Alice@Mail.com" "password1" dbUsers = login "alice@MAIL.COM" "password1" dbUsers ∧
    ((inviteMember 1 (some 1) "Bob@Mail.com" dbInvite).1.status
        = (inviteMember 1 (some 1) "BOB@mail.com" dbInvite).1.status ∧
     (inviteMember 1 (some 1) "Bob@Mail.com" dbInvite).2
        = (inviteMember 1 (some 1) "BOB@mail.com" dbInvite).2) :=
  ⟨C10_email_case_insensitive.1 dbEmpty "Alice@Mail.com" "longpassword" "Alice"
      (by decide) (by decide) (by decide) (by decide),
   C10_email_case_insensitive.2.1 dbUsers "Alice@Mail.com" "alice@MAIL.COM" "password1"
      (by decide),
   C10_email_case_insensitive.2.2 1 (some 1) dbInvite "Bob@Mail.com" "BOB@mail.com"
      (by decide)⟩

end Tremu
